import Mathlib

/-!
Shallow embedding of `src/ArduinoWaterSampler.ino` (the pump sequencer,
configuration store and button-driven editor of the Arduino water sampler).

Modelling choices, each mirroring the source:
* The global mutable variables of the sketch (`running`, `reqRestart`,
  `cursorPos`, `initPumpNo`, `currentPumpNo`, `pumpActive[6]`, the EEPROM
  `Properties` values, and the digital output levels of the pump pins)
  become the fields of a state record `S`.  C `int` variables are embedded
  as `Int`; the `pumpActive` array and the pin levels are embedded as total
  functions `Int → Bool` so that an out-of-bounds index is expressible —
  the separate `oob` flag records whether any array access ever used an
  index outside `0..5` (in C such an access is undefined behaviour).
* The `Timer` library is abstracted by two counters of pending single-shot
  callbacks, `pendingStarts` (callbacks registered as `timer.after(_, startPump)`)
  and `pendingStops` (registered as `timer.after(_, stopPump)`).  A pending
  callback may fire at any time (events `Ev.fireStart` / `Ev.fireStop`);
  this over-approximates the real timer, which fires in due-time order.
* `commits` counts the invocations of `saveAndRestart()` (the commit path).
* Display calls (`displayBig`, `displayTimes`, …), `delay`, `Serial` output
  and `pinMode` touch none of the modelled state and are dropped.
* The button/float-switch callbacks become an event alphabet `Ev`; `Ev.inc`
  and `Ev.dec` are `changeVal` invoked from the up/down button, `Ev.bigInc`
  and `Ev.bigDec` are `bigChangeVal`, `Ev.advance`/`Ev.retreat` are
  `incrementCursor`/`decrementCursor`, and `Ev.waterPresent`/`Ev.waterAbsent`
  are `underWater`/`overWater`.
-/

set_option maxRecDepth 40000

namespace WaterSampler

/-- The Arduino `max(a,b)` macro: `((a)>(b)?(a):(b))`. -/
def cMax (a b : Int) : Int := if a > b then a else b

/-- Whether an array index is within the bounds of `PUMP_PINS[6]` /
`pumpActive[6]`. -/
def inBounds (n : Int) : Bool := 0 ≤ n && n < 6

/-- The input events of the sketch: the three buttons (advance short press,
advance hold, up/down short press, up/down hold), the float switch edges,
and the firing of a pending timer callback. -/
inductive Ev where
  | advance
  | retreat
  | inc
  | dec
  | bigInc
  | bigDec
  | waterPresent
  | waterAbsent
  | fireStart
  | fireStop
deriving DecidableEq

/-- The global state of the sketch. -/
structure S where
  running : Bool
  reqRestart : Bool
  cursorPos : Int
  initPumpNo : Int
  currentPumpNo : Int
  pumpActive : Int → Bool
  pinLevel : Int → Bool
  config : Int → Int
  pendingStarts : Nat
  pendingStops : Nat
  commits : Nat
  oob : Bool

/-- The state after `setup()`: all globals at their initialisers, the
configuration as loaded from EEPROM (`c0`), no callbacks pending. -/
def initState (c0 : Int → Int) : S :=
  { running := false
    reqRestart := false
    cursorPos := 0
    initPumpNo := 0
    currentPumpNo := 0
    pumpActive := fun _ => false
    pinLevel := fun _ => false
    config := c0
    pendingStarts := 0
    pendingStops := 0
    commits := 0
    oob := false }

/-- `stopPump(int pumpNo)`: drives the pump's pin LOW and clears its
`pumpActive` flag, with no guard on `running` and no bounds check. -/
def stopPumpN (s : S) (pumpNo : Int) : S :=
  { s with
    pinLevel := fun i => if i = pumpNo then false else s.pinLevel i
    pumpActive := fun i => if i = pumpNo then false else s.pumpActive i
    oob := s.oob || !inBounds pumpNo }

/-- `startPump(int pumpNo)`: if `running`, drives the pump's pin HIGH, sets
its `pumpActive` flag, schedules a stop callback after the configured
runtime, and then loops `for (i=0;i<6;i++) if (i!=pumpNo) stopPump(i);`.
If not `running`, does nothing. -/
def startPumpN (s : S) (pumpNo : Int) : S :=
  if s.running then
    let s1 : S :=
      { s with
        pinLevel := fun i => if i = pumpNo then true else s.pinLevel i
        pumpActive := fun i => if i = pumpNo then true else s.pumpActive i
        pendingStops := s.pendingStops + 1
        oob := s.oob || !inBounds pumpNo }
    ([0, 1, 2, 3, 4, 5] : List Int).foldl
      (fun t i => if i ≠ pumpNo then stopPumpN t i else t) s1
  else s

/-- The no-argument `startPump()` timer callback:
`startPump(initPumpNo); initPumpNo++;` (the increment is unconditional). -/
def startPump0 (s : S) : S :=
  let s1 := startPumpN s s.initPumpNo
  { s1 with initPumpNo := s1.initPumpNo + 1 }

/-- The no-argument `stopPump()` timer callback:
`stopPump(currentPumpNo); currentPumpNo++;`. -/
def stopPump0 (s : S) : S :=
  let s1 := stopPumpN s s.currentPumpNo
  { s1 with currentPumpNo := s1.currentPumpNo + 1 }

/-- `setupPumps()`: schedules one `startPump` callback per pump at its
configured offset (abstracted to `pendingStarts + 6`) and resets
`initPumpNo = 0`.  Note: `currentPumpNo` is not touched. -/
def setupPumps (s : S) : S :=
  { s with pendingStarts := s.pendingStarts + 6, initPumpNo := 0 }

/-- `saveAndRestart()`: shows the "Saving Config" notification (dropped) and
calls `setupPumps()`.  The `commits` ghost counter records the call. -/
def saveAndRestart (s : S) : S :=
  { setupPumps s with commits := s.commits + 1 }

/-- `modify(int pump, int mins)`: sets `reqRestart`, stores
`max(getInt(pump) + mins, 0)` at index `pump`, and persists (persistence has
no modelled effect). -/
def modify (s : S) (pump mins : Int) : S :=
  { s with
    reqRestart := true
    config := fun i => if i = pump then cMax (s.config pump + mins) 0 else s.config i }

/-- `incrementCursor`: `cursorPos = (cursorPos + 1) % 14;` then
`if ((cursorPos == 0) & reqRestart) saveAndRestart();`. -/
def incrementCursor (s : S) : S :=
  let s1 : S := { s with cursorPos := (s.cursorPos + 1) % 14 }
  if s1.cursorPos = 0 ∧ s1.reqRestart then saveAndRestart s1 else s1

/-- `decrementCursor`: `cursorPos = max(cursorPos - 2, 0);`. -/
def decrementCursor (s : S) : S :=
  { s with cursorPos := cMax (s.cursorPos - 2) 0 }

/-- `changeVal` when the sender is the up button: `inc = 60` on an even
cursor position, `1` on an odd one; `modify(cursorPos/2, inc)`. -/
def changeValUp (s : S) : S :=
  modify s (s.cursorPos / 2) (if s.cursorPos % 2 = 0 then 60 else 1)

/-- `changeVal` when the sender is the down button: `modify(cursorPos/2, -inc)`. -/
def changeValDown (s : S) : S :=
  modify s (s.cursorPos / 2) (-(if s.cursorPos % 2 = 0 then (60 : Int) else 1))

/-- `bigChangeVal` when the sender is the up button: `inc = 540` on an even
cursor position, `9` on an odd one; `modify(cursorPos/2, inc)`. -/
def bigChangeValUp (s : S) : S :=
  modify s (s.cursorPos / 2) (if s.cursorPos % 2 = 0 then 540 else 9)

/-- `bigChangeVal` when the sender is the down button: `modify(cursorPos/2, -inc)`. -/
def bigChangeValDown (s : S) : S :=
  modify s (s.cursorPos / 2) (-(if s.cursorPos % 2 = 0 then (540 : Int) else 9))

/-- `underWater`: `if (!running) { running = true; setupPumps(); }`
(the "Started" notification is dropped). -/
def underWater (s : S) : S :=
  if !s.running then setupPumps { s with running := true } else s

/-- `overWater`: the pump-halting body is commented out in the source; only
the "Water?" notification and a `delay(800)` remain, so the modelled state
is untouched. -/
def overWater (s : S) : S := s

/-- One event of the sketch.  A `fireStart` / `fireStop` event consumes one
pending callback and runs the no-argument `startPump()` / `stopPump()`;
with no pending callback of that kind the event cannot occur and is the
identity. -/
def step (s : S) : Ev → S
  | .advance => incrementCursor s
  | .retreat => decrementCursor s
  | .inc => changeValUp s
  | .dec => changeValDown s
  | .bigInc => bigChangeValUp s
  | .bigDec => bigChangeValDown s
  | .waterPresent => underWater s
  | .waterAbsent => overWater s
  | .fireStart =>
      if s.pendingStarts = 0 then s
      else startPump0 { s with pendingStarts := s.pendingStarts - 1 }
  | .fireStop =>
      if s.pendingStops = 0 then s
      else stopPump0 { s with pendingStops := s.pendingStops - 1 }

/-- Run the sketch from `setup()` with EEPROM contents `c0` through a
sequence of events. -/
def run (c0 : Int → Int) (evs : List Ev) : S :=
  evs.foldl step (initState c0)

/-- An all-zero EEPROM image (all offsets and the runtime 0 minutes). -/
def zcfg : Int → Int := fun _ => 0

/-- Mutual exclusion of the six `pumpActive` flags: any two true flags with
in-bounds indices coincide. -/
def mutex (s : S) : Prop :=
  ∀ i j : Int, 0 ≤ i → i < 6 → 0 ≤ j → j < 6 →
    s.pumpActive i = true → s.pumpActive j = true → i = j

/-- Equality of all state components other than the pin levels, the
`pumpActive` flags and the `oob` marker (the only components `stopPump(int)`
writes). -/
def schedFrame (a b : S) : Prop :=
  a.running = b.running ∧ a.reqRestart = b.reqRestart ∧ a.cursorPos = b.cursorPos ∧
  a.initPumpNo = b.initPumpNo ∧ a.currentPumpNo = b.currentPumpNo ∧
  a.config = b.config ∧ a.pendingStarts = b.pendingStarts ∧
  a.pendingStops = b.pendingStops ∧ a.commits = b.commits

/-- Invariant: while the sequencer has never been armed (`running` false),
no stop callback is pending (stop callbacks are only scheduled inside
`startPump(int)` under the `running` guard, and nothing ever clears
`running`). -/
def noStaleStops (s : S) : Prop := s.running = false → s.pendingStops = 0

/-- A sequence of `modify(pump, mins)` calls. -/
def modifyCalls (s : S) (calls : List (Int × Int)) : S :=
  calls.foldl (fun t c => modify t c.1 c.2) s

/-- One value edit followed by fourteen short presses of the advance button:
the cursor walks 1,2,…,13,0 and commits on the wrap. -/
def editWrapTrace : List Ev := Ev.inc :: List.replicate 14 Ev.advance

/-- An EEPROM image for the single-pump scenario: pump 1 offset 0 minutes,
runtime 1 minute, all other offsets 10000 minutes (so their start callbacks
stay pending throughout the scenario). -/
def c3cfg : Int → Int := fun i => if i = 0 then 0 else if i = 6 then 1 else 10000

/-- Water detected, pump 1 starts and stops, one edit, then thirteen
advance presses (cursor at 13, no commit yet). -/
def armOnceTrace : List Ev :=
  [Ev.waterPresent, Ev.fireStart, Ev.fireStop, Ev.inc] ++ List.replicate 13 Ev.advance

/-- A complete six-pump sequence, then an edit-and-wrap commit, then the
first rescheduled start callback and its stop callback. -/
def fullCycleTrace : List Ev :=
  [Ev.waterPresent] ++ List.replicate 6 Ev.fireStart ++ List.replicate 6 Ev.fireStop
    ++ [Ev.inc] ++ List.replicate 14 Ev.advance ++ [Ev.fireStart]

/-- The armed state reached by a single water detection from startup. -/
def armedState : S := run zcfg [Ev.waterPresent]

/-- A startup state with the edit cursor moved to position 13. -/
def cursor13State : S := { initState zcfg with cursorPos := 13 }

lemma foldl_stop_pumpActive (l : List Int) (t : S) (n i : Int) :
    (l.foldl (fun u k => if k ≠ n then stopPumpN u k else u) t).pumpActive i
      = if i ∈ l ∧ i ≠ n then false else t.pumpActive i := by
  induction l generalizing t with
  | nil => simp
  | cons k ks ih =>
      rw [List.foldl_cons, ih]
      by_cases hkn : k = n
      · subst hkn
        simp only [ne_eq, not_true_eq_false, if_false, List.mem_cons]
        by_cases him : i ∈ ks <;> by_cases hin : i = k <;> simp_all
      · simp only [ne_eq, hkn, not_false_eq_true, if_true, stopPumpN, List.mem_cons]
        by_cases hik : i = k <;> by_cases him : i ∈ ks <;>
          by_cases hin : i = n <;> simp_all

lemma startPumpN_active_run (s : S) (n : Int) (h : s.running = true) (i : Int)
    (h0 : 0 ≤ i) (h1 : i < 6) (hi : (startPumpN s n).pumpActive i = true) :
    i = n := by
  by_cases hin : i = n
  · exact hin
  · exfalso
    unfold startPumpN at hi
    rw [h] at hi
    simp only [if_true] at hi
    rw [foldl_stop_pumpActive] at hi
    have hmem : i ∈ ([0, 1, 2, 3, 4, 5] : List Int) := by
      simp only [List.mem_cons, List.mem_singleton]
      omega
    rw [if_pos ⟨hmem, hin⟩] at hi
    exact Bool.false_ne_true hi

lemma mutex_startPumpN (s : S) (hm : mutex s) (n : Int) :
    mutex (startPumpN s n) := by
  by_cases h : s.running = true
  · intro i j hi0 hi1 hj0 hj1 hi hj
    rw [startPumpN_active_run s n h i hi0 hi1 hi,
        startPumpN_active_run s n h j hj0 hj1 hj]
  · unfold startPumpN
    rw [Bool.not_eq_true] at h
    rw [h]
    simpa using hm

lemma mutex_stopPumpN (s : S) (hm : mutex s) (n : Int) :
    mutex (stopPumpN s n) := by
  intro i j hi0 hi1 hj0 hj1 hi hj
  simp only [stopPumpN] at hi hj
  by_cases hin : i = n <;> by_cases hjn : j = n <;> simp_all
  exact hm i j hi0 hi1 hj0 hj1 hi hj

lemma mutex_of_pumpActive_eq {s t : S} (h : t.pumpActive = s.pumpActive)
    (hm : mutex s) : mutex t := by
  intro i j hi0 hi1 hj0 hj1 hi hj
  rw [h] at hi hj
  exact hm i j hi0 hi1 hj0 hj1 hi hj

lemma incrementCursor_pumpActive (s : S) :
    (incrementCursor s).pumpActive = s.pumpActive := by
  simp only [incrementCursor]
  split <;> rfl

lemma underWater_pumpActive (s : S) :
    (underWater s).pumpActive = s.pumpActive := by
  simp only [underWater]
  split <;> rfl

lemma mutex_startPump0 (s : S) (hm : mutex s) : mutex (startPump0 s) := by
  intro i j hi0 hi1 hj0 hj1 hi hj
  exact mutex_startPumpN s hm s.initPumpNo i j hi0 hi1 hj0 hj1 hi hj

lemma mutex_stopPump0 (s : S) (hm : mutex s) : mutex (stopPump0 s) := by
  intro i j hi0 hi1 hj0 hj1 hi hj
  exact mutex_stopPumpN s hm s.currentPumpNo i j hi0 hi1 hj0 hj1 hi hj

lemma mutex_step (s : S) (hm : mutex s) (e : Ev) : mutex (step s e) := by
  cases e with
  | advance => exact mutex_of_pumpActive_eq (incrementCursor_pumpActive s) hm
  | retreat => exact hm
  | inc => exact hm
  | dec => exact hm
  | bigInc => exact hm
  | bigDec => exact hm
  | waterPresent => exact mutex_of_pumpActive_eq (underWater_pumpActive s) hm
  | waterAbsent => exact hm
  | fireStart =>
      simp only [step]
      split
      · exact hm
      · apply mutex_startPump0
        intro i j hi0 hi1 hj0 hj1 hi hj
        exact hm i j hi0 hi1 hj0 hj1 hi hj
  | fireStop =>
      simp only [step]
      split
      · exact hm
      · apply mutex_stopPump0
        intro i j hi0 hi1 hj0 hj1 hi hj
        exact hm i j hi0 hi1 hj0 hj1 hi hj

lemma mutex_init (c0 : Int → Int) : mutex (initState c0) := by
  intro i j _ _ _ _ hi _
  exact absurd hi (by simp [initState])

lemma mutex_foldl (evs : List Ev) (s : S) (hm : mutex s) :
    mutex (evs.foldl step s) := by
  induction evs generalizing s with
  | nil => exact hm
  | cons e es ih => exact ih _ (mutex_step s hm e)

lemma schedFrame_refl (a : S) : schedFrame a a :=
  ⟨rfl, rfl, rfl, rfl, rfl, rfl, rfl, rfl, rfl⟩

lemma schedFrame_trans {a b c : S} (h1 : schedFrame a b) (h2 : schedFrame b c) :
    schedFrame a c := by
  obtain ⟨x1, x2, x3, x4, x5, x6, x7, x8, x9⟩ := h1
  obtain ⟨y1, y2, y3, y4, y5, y6, y7, y8, y9⟩ := h2
  exact ⟨x1.trans y1, x2.trans y2, x3.trans y3, x4.trans y4, x5.trans y5,
    x6.trans y6, x7.trans y7, x8.trans y8, x9.trans y9⟩

lemma stopPumpN_schedFrame (t : S) (n : Int) : schedFrame (stopPumpN t n) t :=
  ⟨rfl, rfl, rfl, rfl, rfl, rfl, rfl, rfl, rfl⟩

lemma foldl_stop_schedFrame (l : List Int) (t : S) (n : Int) :
    schedFrame (l.foldl (fun u k => if k ≠ n then stopPumpN u k else u) t) t := by
  induction l generalizing t with
  | nil => exact schedFrame_refl t
  | cons k ks ih =>
      rw [List.foldl_cons]
      refine schedFrame_trans (ih _) ?_
      split
      · exact stopPumpN_schedFrame t k
      · exact schedFrame_refl t

lemma startPumpN_schedFrame (s : S) (n : Int) :
    (startPumpN s n).running = s.running ∧
    (startPumpN s n).cursorPos = s.cursorPos ∧
    (startPumpN s n).initPumpNo = s.initPumpNo ∧
    (startPumpN s n).currentPumpNo = s.currentPumpNo ∧
    (startPumpN s n).pendingStarts = s.pendingStarts ∧
    (startPumpN s n).commits = s.commits := by
  unfold startPumpN
  split
  · have h := foldl_stop_schedFrame ([0, 1, 2, 3, 4, 5] : List Int)
      { s with
        pinLevel := fun i => if i = n then true else s.pinLevel i
        pumpActive := fun i => if i = n then true else s.pumpActive i
        pendingStops := s.pendingStops + 1
        oob := s.oob || !inBounds n } n
    obtain ⟨x1, _, x3, x4, x5, _, x7, _, x9⟩ := h
    exact ⟨x1, x3, x4, x5, x7, x9⟩
  · exact ⟨rfl, rfl, rfl, rfl, rfl, rfl⟩

lemma step_commits (s : S) (e : Ev) (he : e ≠ Ev.advance) :
    (step s e).commits = s.commits := by
  cases e with
  | advance => exact absurd rfl he
  | retreat => rfl
  | inc => rfl
  | dec => rfl
  | bigInc => rfl
  | bigDec => rfl
  | waterPresent => simp only [step, underWater]; split <;> rfl
  | waterAbsent => rfl
  | fireStart =>
      simp only [step]
      split
      · rfl
      · exact (startPumpN_schedFrame _ _).2.2.2.2.2
  | fireStop =>
      simp only [step]
      split <;> rfl

lemma noStaleStops_step (s : S) (h : noStaleStops s) (e : Ev) :
    noStaleStops (step s e) := by
  cases e with
  | advance =>
      simp only [step, incrementCursor]
      split <;> exact h
  | retreat => exact h
  | inc => exact h
  | dec => exact h
  | bigInc => exact h
  | bigDec => exact h
  | waterPresent =>
      simp only [step, underWater]
      split
      · intro hr
        exact absurd hr (by simp [setupPumps])
      · exact h
  | waterAbsent => exact h
  | fireStart =>
      simp only [step]
      split
      · exact h
      · intro hr
        have hsr : s.running = false := by
          rw [← (startPumpN_schedFrame { s with pendingStarts := s.pendingStarts - 1 }
            s.initPumpNo).1]
          exact hr
        have hps : s.pendingStops = 0 := h hsr
        show (startPump0 _).pendingStops = 0
        unfold startPump0 startPumpN
        simp only [hsr]
        simpa using hps
  | fireStop =>
      simp only [step]
      split
      · exact h
      · intro hr
        exact absurd (h hr) (by assumption)

lemma noStaleStops_foldl (evs : List Ev) :
    ∀ t : S, noStaleStops t → noStaleStops (evs.foldl step t) := by
  induction evs with
  | nil => exact fun t ht => ht
  | cons e es ih =>
      intro t ht
      rw [List.foldl_cons]
      exact ih _ (noStaleStops_step t ht e)

lemma noStaleStops_run (c0 : Int → Int) (evs : List Ev) :
    noStaleStops (run c0 evs) :=
  noStaleStops_foldl evs (initState c0) (fun _ => rfl)

lemma cursor_step (s : S) (e : Ev) (h0 : 0 ≤ s.cursorPos) (h1 : s.cursorPos < 14) :
    0 ≤ (step s e).cursorPos ∧ (step s e).cursorPos < 14 := by
  cases e with
  | advance =>
      simp only [step, incrementCursor]
      split <;>
        exact ⟨Int.emod_nonneg _ (by norm_num), Int.emod_lt_of_pos _ (by norm_num)⟩
  | retreat =>
      simp only [step, decrementCursor, cMax]
      split <;> omega
  | inc => exact ⟨h0, h1⟩
  | dec => exact ⟨h0, h1⟩
  | bigInc => exact ⟨h0, h1⟩
  | bigDec => exact ⟨h0, h1⟩
  | waterPresent =>
      simp only [step, underWater]
      split <;> exact ⟨h0, h1⟩
  | waterAbsent => exact ⟨h0, h1⟩
  | fireStart =>
      simp only [step]
      split
      · exact ⟨h0, h1⟩
      · rw [show (startPump0 { s with pendingStarts := s.pendingStarts - 1 }).cursorPos
              = s.cursorPos from (startPumpN_schedFrame _ _).2.1]
        exact ⟨h0, h1⟩
  | fireStop =>
      simp only [step]
      split <;> exact ⟨h0, h1⟩

lemma cursor_foldl (evs : List Ev) :
    ∀ s : S, 0 ≤ s.cursorPos → s.cursorPos < 14 →
      0 ≤ (evs.foldl step s).cursorPos ∧ (evs.foldl step s).cursorPos < 14 := by
  induction evs with
  | nil => exact fun s h0 h1 => ⟨h0, h1⟩
  | cons e es ih =>
      intro s h0 h1
      rw [List.foldl_cons]
      exact ih _ (cursor_step s e h0 h1).1 (cursor_step s e h0 h1).2

lemma cMax_zero_nonneg (a : Int) : 0 ≤ cMax a 0 := by
  unfold cMax
  split <;> omega

lemma config_nonneg_modifyCalls (calls : List (Int × Int)) :
    ∀ s : S, (∀ j, 0 ≤ s.config j) → ∀ j, 0 ≤ (modifyCalls s calls).config j := by
  induction calls with
  | nil => exact fun s hs => hs
  | cons c cs ih =>
      intro s hs j
      show 0 ≤ (cs.foldl (fun t c => modify t c.1 c.2) (modify s c.1 c.2)).config j
      refine ih (modify s c.1 c.2) ?_ j
      intro k
      simp only [modify]
      by_cases hk : k = c.1
      · simpa [hk] using cMax_zero_nonneg (s.config c.1 + c.2)
      · simpa [hk] using hs k

/-- Claim C1: mutual exclusion of actuators — after any sequence of
arm/rearm, water-present/absent, edit and timer-callback events from
startup, at most one of the six `pumpActive` flags is true (any two set
flags with indices in 0..5 coincide), because `startPump(int)` stops every
other pump immediately after activating one. -/
theorem c1_mutual_exclusion (c0 : Int → Int) (evs : List Ev) :
    mutex (run c0 evs) :=
  mutex_foldl evs (initState c0) (mutex_init c0)

/-- Claim C1, concrete instance: the invariant evaluated after arming and
two start callbacks. -/
theorem c1_witness :
    mutex (run zcfg [Ev.waterPresent, Ev.fireStart, Ev.fireStart]) :=
  c1_mutual_exclusion zcfg [Ev.waterPresent, Ev.fireStart, Ev.fireStart]

/-- Claim C5: refuted — after a full six-pump cycle (`currentPumpNo` ends
at 6), an edit-and-wrap commit reschedules six start callbacks; the first
rescheduled start activates pump 1 and schedules a stop callback, which
then fires with `currentPumpNo = 6`, so `stopPump(6)` accesses
`PUMP_PINS[6]` and `pumpActive[6]` out of bounds (the `oob` marker is set;
in C this is undefined behaviour). -/
theorem c5_out_of_bounds :
    (run zcfg fullCycleTrace).oob = false ∧
    (run zcfg fullCycleTrace).currentPumpNo = 6 ∧
    (run zcfg fullCycleTrace).pendingStops = 1 ∧
    (run zcfg (fullCycleTrace ++ [Ev.fireStop])).oob = true :=
  ⟨rfl, rfl, rfl, rfl⟩

/-- Claim C6: non-negativity of configuration — if the loaded configuration
is non-negative, then after any sequence of `modify(index, delta)` calls
with arbitrary deltas every stored value is still non-negative, because
`modify` stores `max(get(index) + delta, 0)`. -/
theorem c6_nonneg (c0 : Int → Int) (h : ∀ j, 0 ≤ c0 j)
    (calls : List (Int × Int)) (j : Int) :
    0 ≤ (modifyCalls (initState c0) calls).config j :=
  config_nonneg_modifyCalls calls (initState c0) h j

/-- Claim C6, concrete instance: a lone decrement of pump 2 from 0 leaves
the value non-negative (the decrement-floor scenario). -/
theorem c6_witness :
    0 ≤ (modifyCalls (initState zcfg) [((1 : Int), (-5 : Int))]).config 1 :=
  c6_nonneg zcfg (fun _ => le_refl 0) [(1, -5)] 1

/-- Claim C7: cursor bound — from any cursor position in `[0,14)`, any
sequence of events keeps the cursor in `[0,14)`; a forward advance from 13
yields 0; a reverse move from 0 or 1 yields 0. -/
theorem c7_cursor_bound (s : S) (h0 : 0 ≤ s.cursorPos) (h1 : s.cursorPos < 14)
    (evs : List Ev) :
    (0 ≤ (evs.foldl step s).cursorPos ∧ (evs.foldl step s).cursorPos < 14)
    ∧ (s.cursorPos = 13 → (incrementCursor s).cursorPos = 0)
    ∧ (s.cursorPos = 0 ∨ s.cursorPos = 1 → (decrementCursor s).cursorPos = 0) := by
  refine ⟨cursor_foldl evs s h0 h1, ?_, ?_⟩
  · intro h13
    have hm : (s.cursorPos + 1) % 14 = 0 := by rw [h13]; decide
    simp only [incrementCursor]
    split <;> exact hm
  · intro h01
    simp only [decrementCursor, cMax]
    split <;> omega

/-- Claim C7, concrete instance: from cursor position 13, one advance stays
in range (it wraps to 0) and the pointwise wrap/floor facts hold. -/
theorem c7_witness :
    (0 ≤ (([Ev.advance] : List Ev).foldl step cursor13State).cursorPos
      ∧ (([Ev.advance] : List Ev).foldl step cursor13State).cursorPos < 14)
    ∧ (cursor13State.cursorPos = 13 → (incrementCursor cursor13State).cursorPos = 0)
    ∧ (cursor13State.cursorPos = 0 ∨ cursor13State.cursorPos = 1 →
        (decrementCursor cursor13State).cursorPos = 0) :=
  c7_cursor_bound cursor13State (by decide) (by decide) [Ev.advance]

/-- Claim C10: water-loss no-op — `overWater` leaves every `pumpActive`
flag, every pin level, the `running` flag, both sequence counters and the
pending-callback schedule unchanged. -/
theorem c10_water_loss_noop (s : S) :
    (step s Ev.waterAbsent).pumpActive = s.pumpActive ∧
    (step s Ev.waterAbsent).pinLevel = s.pinLevel ∧
    (step s Ev.waterAbsent).running = s.running ∧
    (step s Ev.waterAbsent).initPumpNo = s.initPumpNo ∧
    (step s Ev.waterAbsent).currentPumpNo = s.currentPumpNo ∧
    (step s Ev.waterAbsent).pendingStarts = s.pendingStarts ∧
    (step s Ev.waterAbsent).pendingStops = s.pendingStops :=
  ⟨rfl, rfl, rfl, rfl, rfl, rfl, rfl⟩

/-- Claim C2, counterexample: after one edit and a wrap-around (commit
performed, `commits = 1`), `reqRestart` is still `true` — the pending-change
flag is not cleared by a successful commit — and a further fourteen
advances with no new edit commit again. -/
theorem c2_counterexample :
    (run zcfg editWrapTrace).commits = 1 ∧
    (run zcfg editWrapTrace).reqRestart = true ∧
    (run zcfg (editWrapTrace ++ List.replicate 14 Ev.advance)).commits = 2 :=
  ⟨rfl, rfl, rfl⟩

/-- Claim C3, counterexample: pump 1 starts and stops (`currentPumpNo = 1`),
then an edit-and-wrap rearm occurs (`commits` goes 0 to 1, `initPumpNo`
reset to 0) — but `currentPumpNo` stays 1, so the rearm does not reset the
retire counter. -/
theorem c3_counterexample :
    (run c3cfg armOnceTrace).commits = 0 ∧
    (run c3cfg armOnceTrace).currentPumpNo = 1 ∧
    (run c3cfg (armOnceTrace ++ [Ev.advance])).commits = 1 ∧
    (run c3cfg (armOnceTrace ++ [Ev.advance])).initPumpNo = 0 ∧
    (run c3cfg (armOnceTrace ++ [Ev.advance])).currentPumpNo = 1 :=
  ⟨rfl, rfl, rfl, rfl, rfl⟩

/-- Claim C4, counterexample: an edit-and-wrap commit before any water
detection schedules six start callbacks while `running` is still false;
the first such stale callback fires and increments `initPumpNo` from 0 to
1, so a stale start callback does change engine state. -/
theorem c4_counterexample :
    (run zcfg editWrapTrace).running = false ∧
    (run zcfg editWrapTrace).pendingStarts = 6 ∧
    (run zcfg editWrapTrace).initPumpNo = 0 ∧
    (step (run zcfg editWrapTrace) Ev.fireStart).initPumpNo = 1 :=
  ⟨rfl, rfl, rfl, rfl⟩

/-- Claim C8: idempotent re-arm guard — `underWater` on an already-armed
state leaves `pumpActive`, `initPumpNo`, `currentPumpNo` and the pending
start callbacks unchanged; on a disarmed state it sets `running` and
schedules the six start callbacks. -/
theorem c8_idempotent_rearm (s : S) :
    (s.running = true →
      (step s Ev.waterPresent).pumpActive = s.pumpActive ∧
      (step s Ev.waterPresent).initPumpNo = s.initPumpNo ∧
      (step s Ev.waterPresent).currentPumpNo = s.currentPumpNo ∧
      (step s Ev.waterPresent).pendingStarts = s.pendingStarts)
    ∧ (s.running = false →
      (step s Ev.waterPresent).running = true ∧
      (step s Ev.waterPresent).pendingStarts = s.pendingStarts + 6) := by
  constructor
  · intro hr
    simp [step, underWater, hr]
  · intro hr
    simp [step, underWater, setupPumps, hr]

/-- Claim C8, concrete instance: a second water detection on the armed
state changes none of the listed fields. -/
theorem c8_witness :
    (step armedState Ev.waterPresent).pumpActive = armedState.pumpActive ∧
    (step armedState Ev.waterPresent).initPumpNo = armedState.initPumpNo ∧
    (step armedState Ev.waterPresent).currentPumpNo = armedState.currentPumpNo ∧
    (step armedState Ev.waterPresent).pendingStarts = armedState.pendingStarts :=
  (c8_idempotent_rearm armedState).1 rfl

/-- Claim C9: edit deltas and target mapping — with the cursor at `v` in
`[0,14)`, a short increase stores `max(old + 60, 0)` at config index `v/2`
when `v` is even and `max(old + 1, 0)` when odd; a hold uses 540/9; the
decrease variants use the negated delta; no other index changes; and every
such edit sets `reqRestart`. -/
theorem c9_edit_deltas (s : S) (h0 : 0 ≤ s.cursorPos) (h1 : s.cursorPos < 14) :
    ((step s Ev.inc).config (s.cursorPos / 2)
      = cMax (s.config (s.cursorPos / 2) + (if s.cursorPos % 2 = 0 then 60 else 1)) 0)
    ∧ ((step s Ev.dec).config (s.cursorPos / 2)
      = cMax (s.config (s.cursorPos / 2) - (if s.cursorPos % 2 = 0 then 60 else 1)) 0)
    ∧ ((step s Ev.bigInc).config (s.cursorPos / 2)
      = cMax (s.config (s.cursorPos / 2) + (if s.cursorPos % 2 = 0 then 540 else 9)) 0)
    ∧ ((step s Ev.bigDec).config (s.cursorPos / 2)
      = cMax (s.config (s.cursorPos / 2) - (if s.cursorPos % 2 = 0 then 540 else 9)) 0)
    ∧ (∀ j, j ≠ s.cursorPos / 2 →
        (step s Ev.inc).config j = s.config j ∧ (step s Ev.dec).config j = s.config j ∧
        (step s Ev.bigInc).config j = s.config j ∧ (step s Ev.bigDec).config j = s.config j)
    ∧ ((step s Ev.inc).reqRestart = true ∧ (step s Ev.dec).reqRestart = true
        ∧ (step s Ev.bigInc).reqRestart = true ∧ (step s Ev.bigDec).reqRestart = true) := by
  refine ⟨?_, ?_, ?_, ?_, ?_, rfl, rfl, rfl, rfl⟩
  · simp [step, changeValUp, modify]
  · simp [step, changeValDown, modify, sub_eq_add_neg]
  · simp [step, bigChangeValUp, modify]
  · simp [step, bigChangeValDown, modify, sub_eq_add_neg]
  · intro j hj
    refine ⟨?_, ?_, ?_, ?_⟩ <;>
      simp [step, changeValUp, changeValDown, bigChangeValUp, bigChangeValDown, modify, hj]

/-- Claim C9, concrete instance: with the cursor at 13 (runtime minute
digit) a short increase stores `max(old + 1, 0)` at index `13/2 = 6`. -/
theorem c9_witness :
    (step cursor13State Ev.inc).config (cursor13State.cursorPos / 2)
      = cMax (cursor13State.config (cursor13State.cursorPos / 2)
          + (if cursor13State.cursorPos % 2 = 0 then 60 else 1)) 0 :=
  (c9_edit_deltas cursor13State (by decide) (by decide)).1

/-- Claim C2, amended: a commit occurs on an advance press exactly when the
cursor wraps from 13 to 0 with `reqRestart` set; no other event commits;
but the commit does not clear `reqRestart` (advance leaves the flag as it
was, and nothing in the program ever resets it). -/
theorem c2_commit_on_wrap (s : S) (h0 : 0 ≤ s.cursorPos) (h1 : s.cursorPos < 14) :
    ((step s Ev.advance).commits = s.commits + 1 ↔
      s.cursorPos = 13 ∧ s.reqRestart = true)
    ∧ (∀ e : Ev, e ≠ Ev.advance → (step s e).commits = s.commits)
    ∧ ((step s Ev.advance).reqRestart = s.reqRestart) := by
  refine ⟨?_, fun e he => step_commits s e he, ?_⟩
  · simp only [step, incrementCursor]
    constructor
    · intro h
      by_cases hc : ((s.cursorPos + 1) % 14 = 0 ∧ s.reqRestart = true)
      · refine ⟨?_, hc.2⟩
        omega
      · rw [if_neg hc] at h
        have h' : s.commits = s.commits + 1 := h
        omega
    · rintro ⟨h13, hflag⟩
      have hc : (s.cursorPos + 1) % 14 = 0 ∧ s.reqRestart = true :=
        ⟨by rw [h13]; decide, hflag⟩
      rw [if_pos hc]
      rfl
  · simp only [step, incrementCursor]
    split <;> rfl

/-- Claim C2, amended, concrete instance: in the post-commit state (cursor
0, `reqRestart` still set) an advance does not commit, a retreat never
commits, and advance preserves the flag. -/
theorem c2_witness :
    ((step (run zcfg editWrapTrace) Ev.advance).commits
        = (run zcfg editWrapTrace).commits + 1 ↔
      (run zcfg editWrapTrace).cursorPos = 13 ∧
      (run zcfg editWrapTrace).reqRestart = true)
    ∧ (∀ e : Ev, e ≠ Ev.advance →
        (step (run zcfg editWrapTrace) e).commits = (run zcfg editWrapTrace).commits)
    ∧ ((step (run zcfg editWrapTrace) Ev.advance).reqRestart
        = (run zcfg editWrapTrace).reqRestart) :=
  c2_commit_on_wrap (run zcfg editWrapTrace) (by decide) (by decide)

/-- Claim C3, amended: arming (first water detection) and a commit rearm
both schedule the six start callbacks and reset `initPumpNo` to 0, but
`currentPumpNo` is left unchanged (it is not reset). -/
theorem c3_arm_resets (s : S) :
    (s.running = false →
      (step s Ev.waterPresent).pendingStarts = s.pendingStarts + 6 ∧
      (step s Ev.waterPresent).initPumpNo = 0 ∧
      (step s Ev.waterPresent).currentPumpNo = s.currentPumpNo ∧
      (step s Ev.waterPresent).running = true)
    ∧ (s.cursorPos = 13 → s.reqRestart = true →
      (step s Ev.advance).commits = s.commits + 1 ∧
      (step s Ev.advance).pendingStarts = s.pendingStarts + 6 ∧
      (step s Ev.advance).initPumpNo = 0 ∧
      (step s Ev.advance).currentPumpNo = s.currentPumpNo) := by
  constructor
  · intro hr
    simp [step, underWater, setupPumps, hr]
  · intro h13 hflag
    have hc : (s.cursorPos + 1) % 14 = 0 ∧ s.reqRestart = true :=
      ⟨by rw [h13]; decide, hflag⟩
    simp only [step, incrementCursor]
    rw [if_pos hc]
    exact ⟨rfl, rfl, rfl, rfl⟩

/-- Claim C3, amended, concrete instances: the first arm from startup, and
the commit rearm in the single-pump scenario (cursor 13, flag set). -/
theorem c3_witness :
    ((step (initState zcfg) Ev.waterPresent).pendingStarts
        = (initState zcfg).pendingStarts + 6 ∧
      (step (initState zcfg) Ev.waterPresent).initPumpNo = 0 ∧
      (step (initState zcfg) Ev.waterPresent).currentPumpNo
        = (initState zcfg).currentPumpNo ∧
      (step (initState zcfg) Ev.waterPresent).running = true)
    ∧ ((step (run c3cfg armOnceTrace) Ev.advance).commits
        = (run c3cfg armOnceTrace).commits + 1 ∧
      (step (run c3cfg armOnceTrace) Ev.advance).pendingStarts
        = (run c3cfg armOnceTrace).pendingStarts + 6 ∧
      (step (run c3cfg armOnceTrace) Ev.advance).initPumpNo = 0 ∧
      (step (run c3cfg armOnceTrace) Ev.advance).currentPumpNo
        = (run c3cfg armOnceTrace).currentPumpNo) :=
  ⟨(c3_arm_resets (initState zcfg)).1 rfl,
   (c3_arm_resets (run c3cfg armOnceTrace)).2 (by decide) (by decide)⟩

/-- Claim C4, amended: in any reachable state with `running` false, no stop
callback is pending, and a firing start callback changes no `pumpActive`
flag, no pin level and not `currentPumpNo` — but it does increment
`initPumpNo` (the `initPumpNo++` in the no-argument `startPump()` sits
outside the `running` guard). -/
theorem c4_stale_start (c0 : Int → Int) (evs : List Ev)
    (hr : (run c0 evs).running = false) :
    (run c0 evs).pendingStops = 0 ∧
    ((run c0 evs).pendingStarts ≠ 0 →
      (step (run c0 evs) Ev.fireStart).pumpActive = (run c0 evs).pumpActive ∧
      (step (run c0 evs) Ev.fireStart).pinLevel = (run c0 evs).pinLevel ∧
      (step (run c0 evs) Ev.fireStart).currentPumpNo = (run c0 evs).currentPumpNo ∧
      (step (run c0 evs) Ev.fireStart).running = false ∧
      (step (run c0 evs) Ev.fireStart).initPumpNo = (run c0 evs).initPumpNo + 1) := by
  refine ⟨noStaleStops_run c0 evs hr, ?_⟩
  intro hps
  simp only [step, if_neg hps, startPump0, startPumpN]
  simp [hr]

/-- Claim C4, amended, concrete instance: the commit-without-water state
has no pending stop; its first stale start callback leaves the actuator
state alone and increments `initPumpNo`. -/
theorem c4_witness :
    (run zcfg editWrapTrace).pendingStops = 0 ∧
    ((run zcfg editWrapTrace).pendingStarts ≠ 0 →
      (step (run zcfg editWrapTrace) Ev.fireStart).pumpActive
        = (run zcfg editWrapTrace).pumpActive ∧
      (step (run zcfg editWrapTrace) Ev.fireStart).pinLevel
        = (run zcfg editWrapTrace).pinLevel ∧
      (step (run zcfg editWrapTrace) Ev.fireStart).currentPumpNo
        = (run zcfg editWrapTrace).currentPumpNo ∧
      (step (run zcfg editWrapTrace) Ev.fireStart).running = false ∧
      (step (run zcfg editWrapTrace) Ev.fireStart).initPumpNo
        = (run zcfg editWrapTrace).initPumpNo + 1) :=
  c4_stale_start zcfg editWrapTrace rfl

end WaterSampler
